import Mathlib

/-!
Verification of the time-range filter resolver of the simple-note CLI.

The Python source has two byte-identical resolver functions,
`parse_timefilter` in `src/bin/simple_note.py` (lines 508-596) and in
`src/bin/main.py` (lines 397-485).  This file gives a shallow embedding of
that code: strings are `List Char`, Python `datetime` values are civil
date-time records whose `timestamp()` is modelled as the proleptic-Gregorian
epoch-second count of the wall-clock reading (local time is modelled as UTC;
every comparison made by the code and by the spec is between two values
produced by the same conversion, so the fixed local offset cancels), and the
two calls to Python `eval` are modelled by an arithmetic evaluator
`evalExpr` that covers exactly the expression forms the resolver builds
(optionally signed decimal literals combined with `+`, `-` and `*`); any
other text is modelled as an evaluation failure, as it is for the inputs
considered here.  `'.'` in the operand-splitting regular expressions is
modelled as matching any character (the inputs considered contain no
newline).  Python floats are modelled value-free (`PyVal.pyFloat`): the
resolver only ever tests them with `isinstance(_, int)`.

Failure modes of the code are modelled by `Err`:
  * `Err.unpackError`  - the `ValueError` thrown by `(start, end) = split`
    when the split does not give exactly two parts (the spec's
    `InvalidRangeExpression` for a wrong bound count);
  * `Err.invalidRange` - the printed `Invalid timefilter range` followed by
    `exit(1)` (the spec's `InvalidRangeExpression` for a malformed bound or
    a non-integer final value);
  * `Err.keyError`     - the uncaught `KeyError` raised by `int(ts[operands[0]])`
    when the offset base is a numeric literal that is not an anchor name;
  * `Err.evalExit`     - the `except ... exit(1)` handlers around the two
    `eval` calls.
-/

/-! ### Characters and whitespace -/

/-- The ASCII whitespace characters recognised by Python `str.strip` and
regex `\s` (the inputs considered are ASCII). -/
def isSpace (c : Char) : Bool :=
  c = ' ' || c = '\t' || c = '\n' || c = '\r' || c = '\x0b' || c = '\x0c'

/-- ASCII decimal digit test (models Python `str.isnumeric` membership and
the digits accepted in the integer literals the resolver builds). -/
def isDigitC (c : Char) : Bool :=
  48 ≤ c.toNat && c.toNat ≤ 57

/-- Python `str.strip`: drop whitespace on both ends. -/
def pstrip (s : List Char) : List Char :=
  ((s.dropWhile isSpace).reverse.dropWhile isSpace).reverse

/-- Python `str.isnumeric` on the ASCII strings considered: non-empty and
all digits. -/
def isnumeric (s : List Char) : Bool :=
  !s.isEmpty && s.all isDigitC

/-- Python `s.replace(c, rep)` for a single-character pattern `c`. -/
def replaceAllChar (c : Char) (rep : List Char) : List Char → List Char
  | [] => []
  | x :: xs => (if x = c then rep else [x]) ++ replaceAllChar c rep xs

/-! ### Decimal rendering (Python `str` of an `int`) -/

/-- Decimal digit character. -/
def digitChar (d : Nat) : Char := Char.ofNat (48 + d)

/-- Fuel-driven decimal rendering of a natural number; the fuel only bounds
the recursion depth (one step per digit). -/
def natToCharsF : Nat → Nat → List Char
  | 0, _ => []
  | fuel + 1, n =>
    if n < 10 then [digitChar n]
    else natToCharsF fuel (n / 10) ++ [digitChar (n % 10)]

/-- Python `str(n)` for a natural number. -/
def natToChars (n : Nat) : List Char := natToCharsF (n + 1) n

/-- Python `str(i)` for an integer. -/
def intToChars (i : Int) : List Char :=
  if i < 0 then '-' :: natToChars i.natAbs else natToChars i.toNat

/-- Numeric value of a digit string. -/
def charsToNat (s : List Char) : Nat :=
  s.foldl (fun a c => 10 * a + (c.toNat - 48)) 0

/-! ### The arithmetic evaluator (model of the two `eval` calls)

The resolver hands `eval` strings of the shape
`<operand> (+|-) <operand>` and `<digits>* <digits>` (the tail after
`replace`), where an operand is either Python `str` of an integer, a float
rendering, or leftover user text.  `evalExpr` evaluates exactly the
sums/differences of products of optionally signed decimal literals and
fails on everything else; Python literal rules are kept (no leading zero on
a multi-digit integer literal, `'.'` forms a float). -/

/-- A Python value as far as the resolver observes it: an `int`, or some
non-`int` number (a float; its value is never observed, only its type). -/
inductive PyVal where
  | pyInt (i : Int)
  | pyFloat
  deriving DecidableEq, Repr

/-- Model of `isinstance(v, int)`. -/
def PyVal.isInt : PyVal → Bool
  | .pyInt _ => true
  | .pyFloat => false

def addVal : PyVal → PyVal → PyVal
  | .pyInt a, .pyInt b => .pyInt (a + b)
  | _, _ => .pyFloat

def subVal : PyVal → PyVal → PyVal
  | .pyInt a, .pyInt b => .pyInt (a - b)
  | _, _ => .pyFloat

def mulVal : PyVal → PyVal → PyVal
  | .pyInt a, .pyInt b => .pyInt (a * b)
  | _, _ => .pyFloat

/-- Unary-minus application (parity `true` means an odd number of `-`). -/
def negVal : Bool → PyVal → PyVal
  | true, .pyInt a => .pyInt (-a)
  | true, .pyFloat => .pyFloat
  | false, v => v

def skipWs (s : List Char) : List Char := s.dropWhile isSpace

/-- Consume a (possibly empty) run of unary `+`/`-` signs separated by
whitespace; return the resulting sign parity and the rest (whitespace
before the next token already skipped). -/
def parseSigns : Nat → List Char → Bool × List Char
  | 0, s => (false, s)
  | fuel + 1, s =>
    match skipWs s with
    | '-' :: r => let p := parseSigns fuel r; (!p.1, p.2)
    | '+' :: r => parseSigns fuel r
    | other => (false, other)

/-- A multi-digit run starting with `0` (a `SyntaxError` as a Python
integer literal). -/
def leadingZero (s : List Char) : Bool :=
  match s with
  | c :: _ :: _ => c = '0'
  | _ => false

/-- Parse one decimal literal: `pyInt` for an integer literal (Python
rejects a leading zero on a multi-digit literal), `pyFloat` as soon as a
`'.'` participates. -/
def parseNum (s : List Char) : Option (PyVal × List Char) :=
  if (s.takeWhile isDigitC).isEmpty then
    match s.dropWhile isDigitC with
    | '.' :: r2 =>
      if (r2.takeWhile isDigitC).isEmpty then none
      else some (.pyFloat, r2.dropWhile isDigitC)
    | _ => none
  else if leadingZero (s.takeWhile isDigitC) then none
  else
    match s.dropWhile isDigitC with
    | '.' :: r2 => some (.pyFloat, r2.dropWhile isDigitC)
    | rest => some (.pyInt (charsToNat (s.takeWhile isDigitC)), rest)

/-- Remaining `* <literal>` factors of a product. -/
def parseProdLoop : Nat → PyVal → List Char → Option (PyVal × List Char)
  | 0, _, _ => none
  | fuel + 1, acc, s =>
    match skipWs s with
    | '*' :: r =>
      let p := parseSigns fuel r
      match parseNum p.2 with
      | some (v, r3) => parseProdLoop fuel (mulVal acc (negVal p.1 v)) r3
      | none => none
    | _ => some (acc, s)

/-- A product after its unary signs have been consumed. -/
def parseProdAfter (fuel : Nat) (neg : Bool) (s2 : List Char) :
    Option (PyVal × List Char) :=
  match parseNum s2 with
  | some (v, r) => parseProdLoop fuel (negVal neg v) r
  | none => none

/-- A product of optionally signed decimal literals. -/
def parseProd (fuel : Nat) (s : List Char) : Option (PyVal × List Char) :=
  parseProdAfter fuel (parseSigns fuel s).1 (parseSigns fuel s).2

/-- Remaining `(+|-) <product>` terms of a sum; succeeds only when the
whole input is consumed. -/
def parseExprLoop : Nat → PyVal → List Char → Option PyVal
  | 0, _, _ => none
  | fuel + 1, acc, s =>
    match skipWs s with
    | [] => some acc
    | '+' :: r =>
      match parseProd fuel r with
      | some (v, r2) => parseExprLoop fuel (addVal acc v) r2
      | none => none
    | '-' :: r =>
      match parseProd fuel r with
      | some (v, r2) => parseExprLoop fuel (subVal acc v) r2
      | none => none
    | _ => none

/-- Model of Python `eval` on the arithmetic strings the resolver builds;
`none` models the exception caught by the surrounding `try`. -/
def evalExpr (s : List Char) : Option PyVal :=
  match parseProd (s.length + 1) s with
  | some (v, r) => parseExprLoop (s.length + 1) v r
  | none => none

/-! ### `re.sub('\s*range\s*=\s*', '', query)` -/

/-- Try to match `\s*range\s*=\s*` at the head of `s` (the quantifiers are
greedy, and since `r` and `=` are not whitespace the greedy match is the
unique one); return the remainder on success. -/
def matchRangeEq (s : List Char) : Option (List Char) :=
  if (s.dropWhile isSpace).take 5 = ['r', 'a', 'n', 'g', 'e'] then
    match ((s.dropWhile isSpace).drop 5).dropWhile isSpace with
    | '=' :: s3 => some (s3.dropWhile isSpace)
    | _ => none
  else none

/-- One scan of Python `re.sub`: at each position, if the pattern matches,
drop the match and continue after it, else keep the character.  Fuel-driven
(each step consumes at least one character). -/
def subRangeEqF : Nat → List Char → List Char
  | 0, s => s
  | fuel + 1, s =>
    match s with
    | [] => []
    | c :: rest =>
      match matchRangeEq (c :: rest) with
      | some rem => subRangeEqF fuel rem
      | none => c :: subRangeEqF fuel rest

/-- Python `re.sub('\s*range\s*=\s*', '', s)`. -/
def subRangeEq (s : List Char) : List Char := subRangeEqF (s.length + 1) s

/-! ### `s.split(' to ')` -/

/-- The separator list `" to "`. -/
def sepTo : List Char := [' ', 't', 'o', ' ']

/-- Python `s.split(' to ')`: split at every non-overlapping occurrence,
scanning left to right.  Fuel-driven. -/
def splitOnToF : Nat → List Char → List (List Char)
  | 0, s => [s]
  | fuel + 1, s =>
    match s with
    | [] => [[]]
    | c :: rest =>
      if sepTo.isPrefixOf (c :: rest) then
        [] :: splitOnToF fuel ((c :: rest).drop 4)
      else
        match splitOnToF fuel rest with
        | r :: rs => (c :: r) :: rs
        | [] => [[c]]

def splitOnTo (s : List Char) : List (List Char) := splitOnToF (s.length + 1) s

/-! ### The operand-splitting regular expressions

`re.search('.*(?=[\-,\+])', x)` returns everything before the last
character of the class `[-,+]` (note the class also contains `','`),
`re.search('(?<=[\-,\+]).*', x)` everything after the first such character,
and `re.search('[\-,\+]', x)` that first character itself. -/

/-- Membership in the regex character class `[\-,\+]`. -/
def isSignCls (c : Char) : Bool := c = '-' || c = ',' || c = '+'

def beforeLastSign (s : List Char) : List Char :=
  ((s.reverse.dropWhile fun c => !isSignCls c).tail).reverse

def afterFirstSign (s : List Char) : List Char :=
  (s.dropWhile fun c => !isSignCls c).tail

/-- The first class character (the branch guarantees one exists; the
default is unreachable there). -/
def firstSignChar (s : List Char) : Char :=
  match s.dropWhile (fun c => !isSignCls c) with
  | c :: _ => c
  | [] => '+'

/-! ### Dates: the model of `datetime` and `calendar.monthrange`

A `PyDateTime` is a civil wall-clock reading.  `dtTimestamp` is its
epoch-second count in the proleptic Gregorian calendar (see the header
comment on the treatment of local time); `int(x.timestamp())` is exact on
the whole-second datetimes the resolver builds. -/

structure PyDateTime where
  year : Nat
  month : Nat
  day : Nat
  hour : Nat
  minute : Nat
  second : Nat
  deriving DecidableEq, Repr

/-- Gregorian leap year. -/
def isLeap (y : Nat) : Bool := y % 4 = 0 && (y % 100 ≠ 0 || y % 400 = 0)

/-- Model of `calendar.monthrange(y, m)[1]`: number of days of month `m` of year
`y` (months are 1-12 on every `datetime` the resolver sees). -/
def daysInMonth (y m : Nat) : Nat :=
  if m = 2 then (if isLeap y then 29 else 28)
  else if m = 4 || m = 6 || m = 9 || m = 11 then 30
  else 31

/-- Days in the years `1 .. y-1`. -/
def daysBeforeYear (y : Nat) : Nat :=
  365 * (y - 1) + (y - 1) / 4 - (y - 1) / 100 + (y - 1) / 400

/-- Days in the months `1 .. m-1` of year `y`. -/
def daysBeforeMonth (y m : Nat) : Nat :=
  (List.range (m - 1)).foldl (fun a k => a + daysInMonth y (k + 1)) 0

/-- Day count of `y-m-d` from `0001-01-01` (day 0). -/
def toOrdinal (y m d : Nat) : Nat :=
  daysBeforeYear y + daysBeforeMonth y m + (d - 1)

/-- The value `toOrdinal 1970 1 1`. -/
def epochOrdinal : Nat := 719162

/-- Days from `1970-01-01` to the civil date of `t`. -/
def dtDays (t : PyDateTime) : Int :=
  (toOrdinal t.year t.month t.day : Int) - epochOrdinal

/-- Python `int(t.timestamp())` on a whole-second datetime. -/
def dtTimestamp (t : PyDateTime) : Int :=
  dtDays t * 86400 + t.hour * 3600 + t.minute * 60 + t.second

/-- Python `t.weekday()`: Monday = 0 .. Sunday = 6 (`1970-01-01` was a
Thursday). -/
def dtWeekday (t : PyDateTime) : Int := (dtDays t + 3) % 7

/-! ### The resolver

`Err` classifies the observable failure behaviours of the code; see the
header comment for the correspondence with the spec's error taxonomy. -/

inductive Err where
  | unpackError
  | invalidRange
  | keyError
  | evalExit
  deriving DecidableEq, Repr

/-- An operand of the single arithmetic step: either a resolved Python
value or the leftover operand text (the code keeps the string when the
base is not an anchor and not numeric, and keeps the tail when no unit
letter occurs in it). -/
inductive Operand where
  | val (v : PyVal)
  | str (s : List Char)
  deriving DecidableEq, Repr

/-- Python `str(operand)` as used by `' '.join` before the second `eval`.  A float
renders as some float literal (its value is never observed: the joint
evaluation only propagates floatness, and the final check rejects any
float). -/
def renderOperand : Operand → List Char
  | .val (.pyInt i) => intToChars i
  | .val .pyFloat => ['0', '.', '0']
  | .str s => s

/-- The interval table `ins` as a scan: first unit letter (in the
insertion order `s`, `m`, `h`, `d`) occurring in the tail, with its
factor. -/
def findUnit (t : List Char) : Option (Char × Nat) :=
  if t.contains 's' then some ('s', 1)
  else if t.contains 'm' then some ('m', 60)
  else if t.contains 'h' then some ('h', 3600)
  else if t.contains 'd' then some ('d', 86400)
  else none

namespace SimpleNote

/-! Embedding of `parse_timefilter`, `src/bin/simple_note.py` lines
508-596. -/

/-- The anchor `ts['start_of_today']`: `now` truncated to midnight. -/
def tsStartOfToday (t : PyDateTime) : Int := dtDays t * 86400

/-- The anchor `ts['end_of_today'] = start_of_today + timedelta(hours=23, minutes=59, seconds=59)`. -/
def tsEndOfToday (t : PyDateTime) : Int := tsStartOfToday t + 86399

/-- The anchor `ts['start_of_this_month']`: first day of the month at midnight. -/
def tsStartOfThisMonth (t : PyDateTime) : Int :=
  ((toOrdinal t.year t.month 1 : Int) - epochOrdinal) * 86400

/-- The anchor `ts['end_of_this_month'] = start_of_this_month + timedelta(days=monthrange-1, hours=23, minutes=59, seconds=59)`. -/
def tsEndOfThisMonth (t : PyDateTime) : Int :=
  tsStartOfThisMonth t + (daysInMonth t.year t.month - 1 : Nat) * 86400 + 86399

/-- The anchor `ts['start_of_this_week'] = start_of_today - timedelta(days=end_of_today.weekday())`;
`end_of_today` falls on the same civil day as `now`, so its weekday is
`now`'s. -/
def tsStartOfThisWeek (t : PyDateTime) : Int :=
  tsStartOfToday t - dtWeekday t * 86400

/-- The anchor `ts['end_of_this_week'] = start_of_this_week + timedelta(days=6, minutes=59, seconds=59)`
(the source omits the hours component here). -/
def tsEndOfThisWeek (t : PyDateTime) : Int :=
  tsStartOfThisWeek t + (6 * 86400 + 59 * 60 + 59)

/-- The timeset dictionary `ts` as a lookup: `int(ts[s].timestamp())` for
the seven anchor keys, `none` for every other string. -/
def tsLookup (t : PyDateTime) (s : List Char) : Option Int :=
  if s = "now".toList then some (dtTimestamp t)
  else if s = "start_of_today".toList then some (tsStartOfToday t)
  else if s = "end_of_today".toList then some (tsEndOfToday t)
  else if s = "start_of_this_month".toList then some (tsStartOfThisMonth t)
  else if s = "end_of_this_month".toList then some (tsEndOfThisMonth t)
  else if s = "start_of_this_week".toList then some (tsStartOfThisWeek t)
  else if s = "end_of_this_week".toList then some (tsEndOfThisWeek t)
  else none

/-- Resolution of one bound (the body of the `for k in query_range.keys()`
loop). -/
def resolveBound (now : PyDateTime) (b : List Char) : Except Err PyVal :=
  match tsLookup now b with
  | some v => .ok (.pyInt v)
  | none =>
    if b.contains '+' || b.contains '-' then
      let base := pstrip (beforeLastSign b)
      let tail := pstrip (afterFirstSign b)
      let oper := firstSignChar b
      let op0 : Except Err Operand :=
        match tsLookup now base with
        | some v => .ok (.val (.pyInt v))
        | none =>
          if isnumeric base then .error .keyError
          else .ok (.str base)
      match op0 with
      | .error e => .error e
      | .ok o0 =>
        let op1 : Except Err Operand :=
          match findUnit tail with
          | some (u, f) =>
            match evalExpr (replaceAllChar u ('*' :: ' ' :: natToChars f) tail) with
            | some v => .ok (.val v)
            | none => .error .evalExit
          | none => .ok (.str tail)
        match op1 with
        | .error e => .error e
        | .ok o1 =>
          match evalExpr (renderOperand o0 ++ ' ' :: oper :: ' ' :: renderOperand o1) with
          | some v => .ok v
          | none => .error .evalExit
    else .error .invalidRange

/-- The loop over the two bound substrings followed by the final
integer check (`any([not isinstance(query_range[k], int) ...])`). -/
def parse2 (now : PyDateTime) (s0 e0 : List Char) : Except Err (PyVal × PyVal) :=
  match resolveBound now (pstrip s0) with
  | .error e => .error e
  | .ok sv =>
    match resolveBound now (pstrip e0) with
    | .error e => .error e
    | .ok ev =>
      if sv.isInt && ev.isInt then .ok (sv, ev) else .error .invalidRange

/-- The resolver `parse_timefilter(query, now=now)` of `src/bin/simple_note.py`. -/
def parse_timefilter (query : List Char) (now : PyDateTime) :
    Except Err (PyVal × PyVal) :=
  match splitOnTo (pstrip (subRangeEq query)) with
  | [s0, e0] => parse2 now s0 e0
  | _ => .error .unpackError

end SimpleNote

namespace MainPy

/-! Embedding of `parse_timefilter`, `src/bin/main.py` lines 397-485 (the
function body is byte-identical to the one in `src/bin/simple_note.py`;
the definitions are repeated so that the equivalence of the two entry
points is a theorem about two separate embeddings). -/

/-- The anchor `ts['start_of_today']`: `now` truncated to midnight. -/
def tsStartOfToday (t : PyDateTime) : Int := dtDays t * 86400

/-- The anchor `ts['end_of_today'] = start_of_today + timedelta(hours=23, minutes=59, seconds=59)`. -/
def tsEndOfToday (t : PyDateTime) : Int := tsStartOfToday t + 86399

/-- The anchor `ts['start_of_this_month']`: first day of the month at midnight. -/
def tsStartOfThisMonth (t : PyDateTime) : Int :=
  ((toOrdinal t.year t.month 1 : Int) - epochOrdinal) * 86400

/-- The anchor `ts['end_of_this_month'] = start_of_this_month + timedelta(days=monthrange-1, hours=23, minutes=59, seconds=59)`. -/
def tsEndOfThisMonth (t : PyDateTime) : Int :=
  tsStartOfThisMonth t + (daysInMonth t.year t.month - 1 : Nat) * 86400 + 86399

/-- The anchor `ts['start_of_this_week'] = start_of_today - timedelta(days=end_of_today.weekday())`. -/
def tsStartOfThisWeek (t : PyDateTime) : Int :=
  tsStartOfToday t - dtWeekday t * 86400

/-- The anchor `ts['end_of_this_week'] = start_of_this_week + timedelta(days=6, minutes=59, seconds=59)`. -/
def tsEndOfThisWeek (t : PyDateTime) : Int :=
  tsStartOfThisWeek t + (6 * 86400 + 59 * 60 + 59)

/-- The timeset dictionary `ts` as a lookup. -/
def tsLookup (t : PyDateTime) (s : List Char) : Option Int :=
  if s = "now".toList then some (dtTimestamp t)
  else if s = "start_of_today".toList then some (tsStartOfToday t)
  else if s = "end_of_today".toList then some (tsEndOfToday t)
  else if s = "start_of_this_month".toList then some (tsStartOfThisMonth t)
  else if s = "end_of_this_month".toList then some (tsEndOfThisMonth t)
  else if s = "start_of_this_week".toList then some (tsStartOfThisWeek t)
  else if s = "end_of_this_week".toList then some (tsEndOfThisWeek t)
  else none

/-- Resolution of one bound (the body of the `for k in query_range.keys()`
loop). -/
def resolveBound (now : PyDateTime) (b : List Char) : Except Err PyVal :=
  match tsLookup now b with
  | some v => .ok (.pyInt v)
  | none =>
    if b.contains '+' || b.contains '-' then
      let base := pstrip (beforeLastSign b)
      let tail := pstrip (afterFirstSign b)
      let oper := firstSignChar b
      let op0 : Except Err Operand :=
        match tsLookup now base with
        | some v => .ok (.val (.pyInt v))
        | none =>
          if isnumeric base then .error .keyError
          else .ok (.str base)
      match op0 with
      | .error e => .error e
      | .ok o0 =>
        let op1 : Except Err Operand :=
          match findUnit tail with
          | some (u, f) =>
            match evalExpr (replaceAllChar u ('*' :: ' ' :: natToChars f) tail) with
            | some v => .ok (.val v)
            | none => .error .evalExit
          | none => .ok (.str tail)
        match op1 with
        | .error e => .error e
        | .ok o1 =>
          match evalExpr (renderOperand o0 ++ ' ' :: oper :: ' ' :: renderOperand o1) with
          | some v => .ok v
          | none => .error .evalExit
    else .error .invalidRange

/-- The loop over the two bound substrings followed by the final
integer check (`any([not isinstance(query_range[k], int) ...])`). -/
def parse2 (now : PyDateTime) (s0 e0 : List Char) : Except Err (PyVal × PyVal) :=
  match resolveBound now (pstrip s0) with
  | .error e => .error e
  | .ok sv =>
    match resolveBound now (pstrip e0) with
    | .error e => .error e
    | .ok ev =>
      if sv.isInt && ev.isInt then .ok (sv, ev) else .error .invalidRange

/-- The resolver `parse_timefilter(query, now=now)` of `src/bin/main.py`. -/
def parse_timefilter (query : List Char) (now : PyDateTime) :
    Except Err (PyVal × PyVal) :=
  match splitOnTo (pstrip (subRangeEq query)) with
  | [s0, e0] => parse2 now s0 e0
  | _ => .error .unpackError

end MainPy

/-- The fixed anchor instant of the source's unit tests,
`2022-04-07T12:30:00` (a Thursday). -/
def now20220407 : PyDateTime := ⟨2022, 4, 7, 12, 30, 0⟩

instance : DecidableEq (Except Err (PyVal × PyVal)) := fun a b =>
  match a, b with
  | .ok x, .ok y =>
    if h : x = y then isTrue (by rw [h]) else isFalse (by intro hc; injection hc; contradiction)
  | .error x, .error y =>
    if h : x = y then isTrue (by rw [h]) else isFalse (by intro hc; injection hc; contradiction)
  | .ok _, .error _ => isFalse (by intro hc; exact Except.noConfusion hc)
  | .error _, .ok _ => isFalse (by intro hc; exact Except.noConfusion hc)

/-! ### Supporting lemmas -/


theorem dropWhile_length_le (p : Char → Bool) (s : List Char) :
    (s.dropWhile p).length ≤ s.length := by
  induction s with
  | nil => simp [List.dropWhile]
  | cons c rest ih =>
    rw [List.dropWhile_cons]
    split
    · exact Nat.le_succ_of_le ih
    · exact Nat.le_refl _

theorem dropWhile_idem (p : Char → Bool) (s : List Char) :
    (s.dropWhile p).dropWhile p = s.dropWhile p := by
  induction s with
  | nil => simp [List.dropWhile]
  | cons c rest ih =>
    rw [List.dropWhile_cons]
    split
    · exact ih
    · rw [List.dropWhile_cons]
      simp_all

theorem matchRangeEq_dropWhile (s : List Char) :
    matchRangeEq (s.dropWhile isSpace) = matchRangeEq s := by
  unfold matchRangeEq
  rw [dropWhile_idem]

theorem matchRangeEq_lt (s r : List Char) (h : matchRangeEq s = some r) :
    r.length < s.length := by
  unfold matchRangeEq at h
  split at h
  · rename_i htake
    split at h
    · rename_i s3 heq
      injection h with h'
      subst h'
      have h1 : (s.dropWhile isSpace).length ≤ s.length := dropWhile_length_le _ _
      have h2 : 5 ≤ (s.dropWhile isSpace).length := by
        have := congrArg List.length htake
        simp [List.length_take] at this
        omega
      have h3 : (((s.dropWhile isSpace).drop 5).dropWhile isSpace).length ≤
          (s.dropWhile isSpace).length - 5 := by
        calc (((s.dropWhile isSpace).drop 5).dropWhile isSpace).length
            ≤ ((s.dropWhile isSpace).drop 5).length := dropWhile_length_le _ _
          _ = (s.dropWhile isSpace).length - 5 := by simp
      have h4 : (s3.dropWhile isSpace).length ≤ s3.length := dropWhile_length_le _ _
      have h5 : s3.length + 1 = (((s.dropWhile isSpace).drop 5).dropWhile isSpace).length := by
        rw [heq]; rfl
      omega
    · exact absurd h (by simp)
  · exact absurd h (by simp)

theorem subRangeEqF_congr :
    ∀ (n f g : Nat) (s : List Char), s.length ≤ n → s.length < f → s.length < g →
      subRangeEqF f s = subRangeEqF g s := by
  intro n
  induction n with
  | zero =>
    intro f g s hn hf hg
    match s, hn with
    | [], _ =>
      match f, hf with
      | f' + 1, _ =>
        match g, hg with
        | g' + 1, _ => rfl
  | succ n ih =>
    intro f g s hn hf hg
    match f, hf with
    | f' + 1, hf =>
      match g, hg with
      | g' + 1, hg =>
        match s with
        | [] => rfl
        | c :: rest =>
          simp only [List.length_cons] at hn hf hg
          show (match matchRangeEq (c :: rest) with
                | some rem => subRangeEqF f' rem
                | none => c :: subRangeEqF f' rest) =
               (match matchRangeEq (c :: rest) with
                | some rem => subRangeEqF g' rem
                | none => c :: subRangeEqF g' rest)
          match hm : matchRangeEq (c :: rest) with
          | some rem =>
            have hlt : rem.length < rest.length + 1 := by
              simpa using matchRangeEq_lt _ _ hm
            exact ih f' g' rem (by omega) (by omega) (by omega)
          | none =>
            rw [ih f' g' rest (by omega) (by omega) (by omega)]

theorem subRangeEqF_to_subRangeEq (f : Nat) (s : List Char) (hf : s.length < f) :
    subRangeEqF f s = subRangeEq s :=
  subRangeEqF_congr s.length f (s.length + 1) s (Nat.le_refl _) hf (Nat.lt_succ_self _)

theorem pstrip_cons_space (c : Char) (s : List Char) (hc : isSpace c = true) :
    pstrip (c :: s) = pstrip s := by
  unfold pstrip
  rw [List.dropWhile_cons_of_pos hc]

theorem subRangeEq_cons (c : Char) (rest : List Char) :
    subRangeEq (c :: rest) =
      match matchRangeEq (c :: rest) with
      | some rem => subRangeEqF (rest.length + 1) rem
      | none => c :: subRangeEq rest := rfl

theorem pstrip_subRangeEq_dropWhile (t : List Char) :
    pstrip (subRangeEq (t.dropWhile isSpace)) = pstrip (subRangeEq t) := by
  induction t with
  | nil => rfl
  | cons c rest ih =>
    by_cases hc : isSpace c = true
    · rw [List.dropWhile_cons_of_pos hc]
      have hmm : matchRangeEq (c :: rest) = matchRangeEq rest := by
        rw [← matchRangeEq_dropWhile (c :: rest), List.dropWhile_cons_of_pos hc,
          matchRangeEq_dropWhile]
      cases hm : matchRangeEq rest with
      | some rem =>
        rw [subRangeEq_cons, hmm, hm]
        show pstrip (subRangeEq (List.dropWhile isSpace rest)) =
          pstrip (subRangeEqF (rest.length + 1) rem)
        have hlt : rem.length < rest.length := matchRangeEq_lt _ _ hm
        rw [subRangeEqF_to_subRangeEq (rest.length + 1) rem (by omega)]
        have hd : matchRangeEq (rest.dropWhile isSpace) = some rem := by
          rw [matchRangeEq_dropWhile, hm]
        cases hsd : rest.dropWhile isSpace with
        | nil =>
          rw [hsd] at hd
          exact absurd hd (by unfold matchRangeEq; simp)
        | cons c2 rest2 =>
          rw [hsd] at hd
          have hlen : rem.length < rest2.length + 1 := by
            have := matchRangeEq_lt _ _ hd
            simpa using this
          rw [subRangeEq_cons, hd]
          show pstrip (subRangeEqF (rest2.length + 1) rem) = pstrip (subRangeEq rem)
          rw [subRangeEqF_to_subRangeEq (rest2.length + 1) rem hlen]
      | none =>
        rw [subRangeEq_cons, hmm, hm]
        show pstrip (subRangeEq (List.dropWhile isSpace rest)) =
          pstrip (c :: subRangeEq rest)
        rw [pstrip_cons_space c _ hc]
        exact ih
    · rw [List.dropWhile_cons_of_neg hc]

theorem subRangeEq_afterRangeTag (t : List Char) :
    subRangeEq ("range= ".toList ++ t) = subRangeEqF (t.length + 7) (t.dropWhile isSpace) := rfl

theorem pstrip_subRangeEq_afterRangeTag (t : List Char) :
    pstrip (subRangeEq ("range= ".toList ++ t)) = pstrip (subRangeEq t) := by
  rw [subRangeEq_afterRangeTag,
    subRangeEqF_to_subRangeEq (t.length + 7) (t.dropWhile isSpace)
      (by have := dropWhile_length_le isSpace t; omega)]
  exact pstrip_subRangeEq_dropWhile t

theorem natToCharsF_congr :
    ∀ (n f g : Nat), n ≤ f → n ≤ g → natToCharsF (f + 1) n = natToCharsF (g + 1) n := by
  intro n
  induction n using Nat.strong_induction_on with
  | _ n ih =>
    intro f g hf hg
    show (if n < 10 then [digitChar n] else natToCharsF f (n / 10) ++ [digitChar (n % 10)]) =
      (if n < 10 then [digitChar n] else natToCharsF g (n / 10) ++ [digitChar (n % 10)])
    split
    · rfl
    · rename_i h10
      cases f with
      | zero => omega
      | succ f2 =>
        cases g with
        | zero => omega
        | succ g2 =>
          rw [ih (n / 10) (by omega) f2 g2 (by omega) (by omega)]

theorem natToChars_eq (n : Nat) :
    natToChars n =
      if n < 10 then [digitChar n] else natToChars (n / 10) ++ [digitChar (n % 10)] := by
  show (if n < 10 then [digitChar n] else natToCharsF n (n / 10) ++ [digitChar (n % 10)]) = _
  split
  · rfl
  · rename_i h10
    cases n with
    | zero => omega
    | succ n2 =>
      show natToCharsF (n2 + 1) ((n2 + 1) / 10) ++ _ = _
      rw [natToCharsF_congr ((n2 + 1) / 10) n2 ((n2 + 1) / 10) (by omega) (by omega)]
      rfl

theorem digitChar_isDigit (d : Nat) (hd : d < 10) : isDigitC (digitChar d) = true := by
  interval_cases d <;> decide

theorem digitChar_toNat (d : Nat) (hd : d < 10) : (digitChar d).toNat = 48 + d := by
  interval_cases d <;> decide

theorem natToChars_ne_nil (n : Nat) : natToChars n ≠ [] := by
  induction n using Nat.strong_induction_on with
  | _ n ih =>
    rw [natToChars_eq]
    split
    · simp
    · simp

theorem natToChars_all_digits (n : Nat) : ∀ c ∈ natToChars n, isDigitC c = true := by
  induction n using Nat.strong_induction_on with
  | _ n ih =>
    rw [natToChars_eq]
    split
    · rename_i h10
      intro c hc
      simp at hc
      subst hc
      exact digitChar_isDigit n h10
    · rename_i h10
      intro c hc
      rw [List.mem_append] at hc
      rcases hc with hc | hc
      · exact ih (n / 10) (by omega) c hc
      · simp at hc
        subst hc
        exact digitChar_isDigit (n % 10) (by omega)

theorem natToChars_head_zero (n : Nat) (h : (natToChars n).head? = some '0') : n = 0 := by
  induction n using Nat.strong_induction_on with
  | _ n ih =>
    rw [natToChars_eq] at h
    split at h
    · rename_i h10
      simp at h
      have : ('0' : Char).toNat = 48 := by decide
      have hd : (digitChar n).toNat = 48 + n := digitChar_toNat n h10
      rw [h] at hd
      omega
    · rename_i h10
      have hne := natToChars_ne_nil (n / 10)
      match hm : natToChars (n / 10) with
      | [] => exact absurd hm hne
      | c :: rest =>
        rw [hm] at h
        simp at h
        have := ih (n / 10) (by omega) (by rw [hm]; simpa using h)
        omega

theorem charsToNat_append_digit (ds : List Char) (c : Char) :
    charsToNat (ds ++ [c]) = 10 * charsToNat ds + (c.toNat - 48) := by
  unfold charsToNat
  rw [List.foldl_append]
  rfl

theorem charsToNat_natToChars (n : Nat) : charsToNat (natToChars n) = n := by
  induction n using Nat.strong_induction_on with
  | _ n ih =>
    rw [natToChars_eq]
    split
    · rename_i h10
      show 10 * 0 + ((digitChar n).toNat - 48) = n
      rw [digitChar_toNat n (by omega)]
      omega
    · rename_i h10
      rw [charsToNat_append_digit, ih (n / 10) (by omega),
        digitChar_toNat (n % 10) (by omega)]
      omega

theorem takeWhile_append_all (p : Char → Bool) (a b : List Char)
    (ha : ∀ c ∈ a, p c = true) (hb : ∀ x, b.head? = some x → p x = false) :
    (a ++ b).takeWhile p = a ∧ (a ++ b).dropWhile p = b := by
  induction a with
  | nil =>
    simp only [List.nil_append]
    cases b with
    | nil => exact ⟨rfl, rfl⟩
    | cons x xs =>
      have hx := hb x rfl
      rw [List.takeWhile_cons, List.dropWhile_cons, hx]
      exact ⟨rfl, rfl⟩
  | cons c cs ih =>
    have hc := ha c (by simp)
    have ih2 := ih (fun d hd => ha d (by simp [hd]))
    rw [List.cons_append, List.takeWhile_cons, List.dropWhile_cons, hc]
    simp only [if_pos]
    exact ⟨by rw [ih2.1], by rw [ih2.2]⟩

theorem isDigit_not_space (c : Char) (h : isDigitC c = true) : isSpace c = false := by
  by_contra hc
  simp only [Bool.not_eq_false] at hc
  unfold isSpace at hc
  simp only [Bool.or_eq_true, decide_eq_true_eq] at hc
  rcases hc with ((((hc | hc) | hc) | hc) | hc) | hc <;> subst hc <;> exact absurd h (by decide)

theorem isSpace_not_digit (c : Char) (h : isSpace c = true) : isDigitC c = false := by
  by_contra hc
  simp only [Bool.not_eq_false] at hc
  rw [isDigit_not_space c hc] at h
  exact Bool.noConfusion h

/-- The leading-zero guard of `parseNum` never fires on `natToChars`. -/
theorem natToChars_no_leading_zero (n : Nat) (x : Char) (xs : List Char) :
    natToChars n ≠ '0' :: x :: xs := by
  intro h
  have h0 : (natToChars n).head? = some '0' := by rw [h]; rfl
  have hn := natToChars_head_zero n h0
  subst hn
  rw [show natToChars 0 = ['0'] from rfl] at h
  simp at h

theorem natToChars_not_empty (n : Nat) : (natToChars n).isEmpty = false := by
  have := natToChars_ne_nil n
  cases h : natToChars n with
  | nil => exact absurd h this
  | cons c cs => rfl

theorem natToChars_not_leadingZero (n : Nat) : leadingZero (natToChars n) = false := by
  cases hD : natToChars n with
  | nil => rfl
  | cons d ds =>
    cases ds with
    | nil => rfl
    | cons d2 ds2 =>
      show (decide (d = '0')) = false
      have hne : d ≠ '0' := by
        intro h
        subst h
        exact natToChars_no_leading_zero n d2 ds2 hD
      exact decide_eq_false hne

theorem parseNum_natToChars (n : Nat) (rtl : List Char) :
    parseNum (natToChars n ++ (' ' :: rtl)) = some (.pyInt n, ' ' :: rtl) := by
  have hta := takeWhile_append_all isDigitC (natToChars n) (' ' :: rtl)
    (natToChars_all_digits n)
    (by intro x hx; injection hx with hx; subst hx; decide)
  unfold parseNum
  rw [hta.1, hta.2, natToChars_not_empty n]
  rw [if_neg (by simp), if_neg (by rw [natToChars_not_leadingZero n]; simp),
    charsToNat_natToChars]
  rfl

theorem isDigit_ne_dash (c : Char) (h : isDigitC c = true) : c ≠ '-' := by
  intro he; subst he; exact absurd h (by decide)

theorem isDigit_ne_plus (c : Char) (h : isDigitC c = true) : c ≠ '+' := by
  intro he; subst he; exact absurd h (by decide)

theorem parseSigns_digits (f n : Nat) (rtl : List Char) :
    parseSigns (f + 1) (natToChars n ++ (' ' :: rtl)) =
      (false, natToChars n ++ (' ' :: rtl)) := by
  cases hD : natToChars n with
  | nil => exact absurd hD (natToChars_ne_nil n)
  | cons d ds =>
    have hd : isDigitC d = true := natToChars_all_digits n d (by rw [hD]; simp)
    have hskip : skipWs (d :: (ds ++ ' ' :: rtl)) = d :: (ds ++ ' ' :: rtl) := by
      unfold skipWs
      rw [List.dropWhile_cons_of_neg (by rw [isDigit_not_space d hd]; simp)]
    show (match skipWs (d :: (ds ++ ' ' :: rtl)) with
          | '-' :: r => ((fun p => (!p.1, p.2)) (parseSigns f r) : Bool × List Char)
          | '+' :: r => parseSigns f r
          | other => (false, other)) = (false, d :: (ds ++ ' ' :: rtl))
    rw [hskip]
    split
    · rename_i r heq
      injection heq with h1 h2
      exact absurd h1 (isDigit_ne_dash d hd)
    · rename_i r heq
      injection heq with h1 h2
      exact absurd h1 (isDigit_ne_plus d hd)
    · rfl

theorem parseSigns_neg_digits (f n : Nat) (rtl : List Char) :
    parseSigns (f + 2) ('-' :: (natToChars n ++ (' ' :: rtl))) =
      (true, natToChars n ++ (' ' :: rtl)) := by
  show (!(parseSigns (f + 1) (natToChars n ++ (' ' :: rtl))).1,
        (parseSigns (f + 1) (natToChars n ++ (' ' :: rtl))).2) = _
  rw [parseSigns_digits]
  rfl

theorem parseProdAfter_digits (f : Nat) (neg : Bool) (n : Nat) (rtl : List Char)
    (hstop : parseProdLoop f (negVal neg (.pyInt n)) (' ' :: rtl) =
      some (negVal neg (.pyInt n), ' ' :: rtl)) :
    parseProdAfter f neg (natToChars n ++ (' ' :: rtl)) =
      some (negVal neg (.pyInt n), ' ' :: rtl) := by
  unfold parseProdAfter
  rw [parseNum_natToChars]
  exact hstop

theorem parseProd_int_prefix (f : Nat) (i : Int) (rtl : List Char)
    (hstop : ∀ (g : Nat) (acc : PyVal),
      parseProdLoop (g + 1) acc (' ' :: rtl) = some (acc, ' ' :: rtl)) :
    parseProd (f + 2) (intToChars i ++ (' ' :: rtl)) = some (.pyInt i, ' ' :: rtl) := by
  unfold parseProd
  by_cases hi : i < 0
  · have hIC : intToChars i = '-' :: natToChars i.natAbs := if_pos hi
    rw [hIC, List.cons_append, parseSigns_neg_digits f i.natAbs rtl]
    show parseProdAfter (f + 2) true (natToChars i.natAbs ++ (' ' :: rtl)) = _
    rw [parseProdAfter_digits (f + 2) true i.natAbs rtl (hstop (f + 1) _)]
    have hconv : -(i.natAbs : Int) = i := by omega
    show some (PyVal.pyInt (-(i.natAbs : Int)), ' ' :: rtl) = some (PyVal.pyInt i, ' ' :: rtl)
    rw [hconv]
  · have hIC : intToChars i = natToChars i.toNat := if_neg hi
    rw [hIC,
      show parseSigns (f + 2) (natToChars i.toNat ++ (' ' :: rtl)) =
        (false, natToChars i.toNat ++ (' ' :: rtl)) from parseSigns_digits (f + 1) i.toNat rtl]
    show parseProdAfter (f + 2) false (natToChars i.toNat ++ (' ' :: rtl)) = _
    rw [parseProdAfter_digits (f + 2) false i.toNat rtl (hstop (f + 1) _)]
    have hconv : (i.toNat : Int) = i := by omega
    show some (PyVal.pyInt (i.toNat : Int), ' ' :: rtl) = some (PyVal.pyInt i, ' ' :: rtl)
    rw [hconv]

theorem intToChars_length_pos (i : Int) : 1 ≤ (intToChars i).length := by
  unfold intToChars
  split
  · simp
  · have := natToChars_ne_nil i.toNat
    cases h : natToChars i.toNat with
    | nil => exact absurd h this
    | cons c cs => exact Nat.succ_le_succ (Nat.zero_le _)

theorem evalExpr_int_dash5x (i : Int) :
    evalExpr (intToChars i ++ (' ' :: '-' :: ' ' :: '5' :: 'x' :: [])) = none := by
  unfold evalExpr
  obtain ⟨f, hf⟩ : ∃ f,
      (intToChars i ++ (' ' :: '-' :: ' ' :: '5' :: 'x' :: [])).length + 1 = f + 2 := by
    have h1 := intToChars_length_pos i
    exact ⟨(intToChars i).length + 4, by simp [List.length_append]⟩
  rw [hf, parseProd_int_prefix f i ('-' :: ' ' :: '5' :: 'x' :: []) (fun g acc => rfl)]
  rfl

theorem evalExpr_int_plus5 (i : Int) :
    evalExpr (intToChars i ++ (' ' :: '+' :: ' ' :: '5' :: [])) = some (.pyInt (i + 5)) := by
  unfold evalExpr
  obtain ⟨f, hf⟩ : ∃ f,
      (intToChars i ++ (' ' :: '+' :: ' ' :: '5' :: [])).length + 1 = f + 2 := by
    exact ⟨(intToChars i).length + 3, by simp [List.length_append]⟩
  rw [hf, parseProd_int_prefix f i ('+' :: ' ' :: '5' :: []) (fun g acc => rfl)]
  rfl

theorem resolveBound_now_dash5x (now : PyDateTime) :
    SimpleNote.resolveBound now ("now - 5x".toList) = .error .evalExit := by
  show (match evalExpr (intToChars (dtTimestamp now) ++ (' ' :: '-' :: ' ' :: '5' :: 'x' :: [])) with
        | some v => (Except.ok v : Except Err PyVal)
        | none => Except.error Err.evalExit) = Except.error Err.evalExit
  rw [evalExpr_int_dash5x]

theorem resolveBound_now_plus5 (now : PyDateTime) :
    SimpleNote.resolveBound now ("now + 5".toList) = .ok (.pyInt (dtTimestamp now + 5)) := by
  show (match evalExpr (intToChars (dtTimestamp now) ++ (' ' :: '+' :: ' ' :: '5' :: [])) with
        | some v => (Except.ok v : Except Err PyVal)
        | none => Except.error Err.evalExit) = Except.ok (.pyInt (dtTimestamp now + 5))
  rw [evalExpr_int_plus5]

/-! ### The source's unit tests, replayed on the embedding -/

/-- The four assertions of `test_parse_timefilter` (present identically in
both source files), evaluated on the embedding. -/
theorem source_unit_tests :
    SimpleNote.parse_timefilter ("range= now - 5h to end_of_today".toList) now20220407 =
      .ok (.pyInt (dtTimestamp ⟨2022, 4, 7, 7, 30, 0⟩),
           .pyInt (dtTimestamp ⟨2022, 4, 7, 23, 59, 59⟩)) ∧
    SimpleNote.parse_timefilter
        ("range=start_of_today - 1d to end_of_this_month + 3m".toList) now20220407 =
      .ok (.pyInt (dtTimestamp ⟨2022, 4, 6, 0, 0, 0⟩),
           .pyInt (dtTimestamp ⟨2022, 5, 1, 0, 2, 59⟩)) ∧
    SimpleNote.parse_timefilter
        ("range =start_of_today - 1d to end_of_this_month + 3m".toList) now20220407 =
      .ok (.pyInt (dtTimestamp ⟨2022, 4, 6, 0, 0, 0⟩),
           .pyInt (dtTimestamp ⟨2022, 5, 1, 0, 2, 59⟩)) ∧
    SimpleNote.parse_timefilter
        ("range= start_of_this_week - 300m to start_of_today + 7s".toList) now20220407 =
      .ok (.pyInt (dtTimestamp ⟨2022, 4, 3, 19, 0, 0⟩),
           .pyInt (dtTimestamp ⟨2022, 4, 7, 0, 0, 7⟩)) := by
  exact ⟨by decide, by decide, by decide, by decide⟩

/-! ### The claims -/

/-- C1: for the fixed anchor instant `now = 2022-04-07T12:30:00` (local
time), resolving `"range= now - 5h to end_of_today"` succeeds and returns
start equal to the epoch seconds of `2022-04-07T07:30:00` and end equal to
the epoch seconds of `2022-04-07T23:59:59`. -/
theorem c1_now_minus_5h_example :
    SimpleNote.parse_timefilter ("range= now - 5h to end_of_today".toList) now20220407 =
      .ok (.pyInt (dtTimestamp ⟨2022, 4, 7, 7, 30, 0⟩),
           .pyInt (dtTimestamp ⟨2022, 4, 7, 23, 59, 59⟩)) := by
  decide

/-- C2 (code bug): on a bound whose offset base is a plain non-negative
integer literal the code evaluates `int(ts[operands[0]])` — an
anchor-dictionary lookup of a key that is guaranteed absent in that branch
— instead of `int(operands[0])`, so it crashes with an uncaught `KeyError`
rather than using the integer as the base epoch seconds: for every `now`,
`"range= 1000 + 5s to end_of_today"` reaches that `KeyError`. -/
theorem c2_numeric_base_keyerror (now : PyDateTime) :
    SimpleNote.parse_timefilter ("range= 1000 + 5s to end_of_today".toList) now =
      .error .keyError := rfl

/-- C3 counterexample: the bare-integer-bounds query `"range= 1000 to
2000"` is rejected with the `Invalid timefilter range` exit (the spec's
`InvalidRangeExpression`), not accepted with the integers unchanged. -/
theorem c3_bare_integer_counterexample :
    SimpleNote.parse_timefilter ("range= 1000 to 2000".toList) now20220407 =
      .error .invalidRange := by
  decide

/-- C3 (amended): a bound that is a bare integer literal, matches no
anchor name and contains no `+`/`-` sign is rejected with
`InvalidRangeExpression` for every `now` — the resolver accepts a bound
only as an anchor name or as an offset expression. -/
theorem c3_bare_integer_rejected (now : PyDateTime) :
    SimpleNote.parse_timefilter ("range= 1000 to 2000".toList) now =
      .error .invalidRange := rfl

/-- C4 counterexample: at the fixed test anchor the upper-case variant
`"range= NOW - 5H to End_Of_Today"` does not return the result of the
all-lowercase query. -/
theorem c4_case_counterexample :
    SimpleNote.parse_timefilter ("range= NOW - 5H to End_Of_Today".toList) now20220407 ≠
      SimpleNote.parse_timefilter ("range= now - 5h to end_of_today".toList) now20220407 := by
  decide

/-- C4 (amended): anchor and unit keywords are matched case-sensitively
(dictionary and substring lookups), so for every `now` the query
`"range= NOW - 5H to End_Of_Today"` fails (at the `eval` of the
unrecognised operand text) instead of resolving like the lowercase
query. -/
theorem c4_case_sensitive (now : PyDateTime) :
    SimpleNote.parse_timefilter ("range= NOW - 5H to End_Of_Today".toList) now =
      .error .evalExit := rfl

/-- C5 counterexample: the derived week span is not 522059 seconds (at the
fixed test anchor, hence at the claimed constant value). -/
theorem c5_week_span_counterexample :
    SimpleNote.tsEndOfThisWeek now20220407 - SimpleNote.tsStartOfThisWeek now20220407 ≠
      522059 := by
  decide

/-- C5 (amended): for every anchor instant `now`, `end_of_this_week −
start_of_this_week` equals exactly 6 days plus 59 minutes plus 59 seconds,
which is 521999 seconds (not 522059), independent of `now`'s weekday — the
hour component is omitted from the offset, literally preserving the
reference formula. -/
theorem c5_week_span_constant (now : PyDateTime) :
    SimpleNote.tsEndOfThisWeek now - SimpleNote.tsStartOfThisWeek now = 521999 := by
  unfold SimpleNote.tsEndOfThisWeek
  omega

/-- C6: after substituting away the `range =` marker, the resolver splits
on the literal token `" to "` and fails whenever the split does not yield
exactly two parts (the tuple-unpacking `ValueError`, the code's form of
the spec's `InvalidRangeExpression`); in particular, for every `now`, the
input `"range= to end_of_today"` (empty first bound) fails that way. -/
theorem c6_split_arity (q : List Char) (now : PyDateTime) :
    ((splitOnTo (pstrip (subRangeEq q))).length ≠ 2 →
      SimpleNote.parse_timefilter q now = .error .unpackError) ∧
    SimpleNote.parse_timefilter ("range= to end_of_today".toList) now =
      .error .unpackError := by
  constructor
  · intro h
    unfold SimpleNote.parse_timefilter
    split
    · rename_i s0 e0 heq
      exact absurd (by rw [heq]; rfl) h
    · rfl
  · rfl

/-- C6 witness: a query with no `" to "` separator at all fails with the
unpack error. -/
theorem c6_split_arity_witness :
    SimpleNote.parse_timefilter ("hello".toList) now20220407 = .error .unpackError :=
  (c6_split_arity ("hello".toList) now20220407).1 (by decide)

/-- C7 counterexample: a tail with none of the four unit letters does not
necessarily fail — the unit-less integer tail `5` in
`"range= now + 5 to end_of_today"` is accepted (unscaled) and the query
resolves successfully at the fixed test anchor. -/
theorem c7_unitless_integer_tail_counterexample :
    SimpleNote.parse_timefilter ("range= now + 5 to end_of_today".toList) now20220407 =
      .ok (.pyInt 1649334605, .pyInt 1649375999) := by
  decide

/-- C7 (amended): when the offset tail contains none of `s`/`m`/`h`/`d`
the code leaves the tail text unscaled and hands it to the final `eval`:
a non-numeric tail such as `5x` then fails for every `now` (the caught
`eval` error followed by `exit(1)`, not a dedicated `InvalidUnit`), so
`"range= now - 5x to end_of_today"` always fails; but a plain-integer
tail such as `5` is accepted without any unit scaling. -/
theorem c7_unitless_tail (now : PyDateTime) :
    SimpleNote.parse_timefilter ("range= now - 5x to end_of_today".toList) now =
      .error .evalExit ∧
    SimpleNote.parse_timefilter ("range= now + 5 to end_of_today".toList) now =
      .ok (.pyInt (dtTimestamp now + 5), .pyInt (SimpleNote.tsEndOfToday now)) := by
  constructor
  · unfold SimpleNote.parse_timefilter
    rw [show splitOnTo (pstrip (subRangeEq ("range= now - 5x to end_of_today".toList))) =
      [("now - 5x".toList), ("end_of_today".toList)] from rfl]
    show SimpleNote.parse2 now ("now - 5x".toList) ("end_of_today".toList) = .error .evalExit
    unfold SimpleNote.parse2
    rw [show pstrip ("now - 5x".toList) = "now - 5x".toList from rfl,
      resolveBound_now_dash5x now]
  · unfold SimpleNote.parse_timefilter
    rw [show splitOnTo (pstrip (subRangeEq ("range= now + 5 to end_of_today".toList))) =
      [("now + 5".toList), ("end_of_today".toList)] from rfl]
    show SimpleNote.parse2 now ("now + 5".toList) ("end_of_today".toList) = _
    unfold SimpleNote.parse2
    rw [show pstrip ("now + 5".toList) = "now + 5".toList from rfl,
      resolveBound_now_plus5 now,
      show pstrip ("end_of_today".toList) = "end_of_today".toList from rfl,
      show SimpleNote.resolveBound now ("end_of_today".toList) =
        .ok (.pyInt (SimpleNote.tsEndOfToday now)) from rfl]
    rfl

/-- C8: whenever the resolver returns successfully, both slots of the
returned range are Python `int`s — the final `isinstance` check fails the
call rather than letting a non-integer value through. -/
theorem c8_result_integers (q : List Char) (now : PyDateTime) (sv ev : PyVal)
    (h : SimpleNote.parse_timefilter q now = .ok (sv, ev)) :
    sv.isInt = true ∧ ev.isInt = true := by
  unfold SimpleNote.parse_timefilter at h
  split at h
  · rename_i s0 e0 heq
    unfold SimpleNote.parse2 at h
    split at h
    · exact absurd h (by simp)
    · split at h
      · exact absurd h (by simp)
      · split at h
        · rename_i hcond
          injection h with h2
          injection h2 with h3 h4
          subst h3; subst h4
          simpa [Bool.and_eq_true] using hcond
        · exact absurd h (by simp)
  · exact absurd h (by simp)

/-- C8 witness: the successful fixed-anchor query returns two `int`
slots. -/
theorem c8_result_integers_witness :
    (PyVal.pyInt 1649316600).isInt = true ∧ (PyVal.pyInt 1649375999).isInt = true :=
  c8_result_integers ("range= now - 5h to end_of_today".toList) now20220407
    (.pyInt 1649316600) (.pyInt 1649375999) (by decide)

/-- C9: the two resolver entry points are extensionally equal — for every
query string and every explicitly supplied `now`, `parse_timefilter` of
`src/bin/main.py` and `parse_timefilter` of `src/bin/simple_note.py`
return the same result and fail identically (their bodies are
byte-identical). -/
theorem c9_resolvers_extensionally_equal (q : List Char) (now : PyDateTime) :
    MainPy.parse_timefilter q now = SimpleNote.parse_timefilter q now := rfl

/-- C10: the `range =` marker is optional at the resolver's interface —
for every bound-pair text `t` and every `now`, resolving `t` bare gives
exactly the same result as resolving `"range= "` followed by `t`, in both
entry points, because the substitution leaves non-matching input
unchanged. -/
theorem c10_no_range_marker_same_result (t : List Char) (now : PyDateTime) :
    SimpleNote.parse_timefilter ("range= ".toList ++ t) now =
      SimpleNote.parse_timefilter t now ∧
    MainPy.parse_timefilter ("range= ".toList ++ t) now =
      MainPy.parse_timefilter t now := by
  constructor
  · unfold SimpleNote.parse_timefilter
    rw [pstrip_subRangeEq_afterRangeTag]
  · unfold MainPy.parse_timefilter
    rw [pstrip_subRangeEq_afterRangeTag]
